import Mathlib

/-!
# Verification of despasito numerical core

Shallow embedding of the despasito sources:

* `despasito/equations_of_state/saft/gamma_mie_funcs_opt.py`
  (`calc_a1s_2d`, `calc_a1s_1d`), and
* `despasito/fit_parameters/data_classes/TLVE.py`
  (`Data.__init__`, `Data._thermo_wrapper`, `Data.objective`).

Floating-point numbers are modelled over `ℚ`.  For the perturbation-term
calculator, where the spec is concerned with finite versus non-finite
(∞ / NaN) results, a float is `Option ℚ`: `some q` is the finite value `q`
and `none` stands for any non-finite IEEE result.  The only operation that
creates a non-finite value from finite operands in this code is division by
zero, and non-finite values are absorbing under the arithmetic used here,
which the `Option` combinators reproduce.  For the objective-function
aggregation, where NaN and ±∞ must be distinguished, floats are the
four-constructor type `EF` below.
-/

set_option maxHeartbeats 1000000

namespace Despasito

/-- A float tracked for finiteness: `some q` finite, `none` non-finite (∞/NaN). -/
abbrev OF : Type := Option ℚ

/-- Addition; a non-finite operand gives a non-finite result. -/
def ofAdd : OF → OF → OF
  | some a, some b => some (a + b)
  | _, _ => none

/-- Subtraction; a non-finite operand gives a non-finite result. -/
def ofSub : OF → OF → OF
  | some a, some b => some (a - b)
  | _, _ => none

/-- Multiplication; a non-finite operand gives a non-finite result
(IEEE `inf * 0 = nan` is likewise non-finite). -/
def ofMul : OF → OF → OF
  | some a, some b => some (a * b)
  | _, _ => none

/-- Division: a zero divisor yields a non-finite result (IEEE ±∞ or NaN),
and non-finite operands propagate. -/
def ofDiv : OF → OF → OF
  | some a, some b => if b = 0 then none else some (a / b)
  | _, _ => none

/-- Natural-number power, elementwise on the finite part. -/
def ofPow (x : OF) (n : Nat) : OF := x.map (fun a => a ^ n)

/-- The IEEE-double value of `np.pi` (exact bit value is immaterial here; the
spec explicitly does not require bit-exact floating point). -/
def npPi : ℚ := 3.141592653589793

/-- Modelled from the spec: the constant correlation-coefficient matrix
`ckl_coef` imported from `despasito/equations_of_state/saft/constants.py`,
a file of this repository that is not under `src/`.  The spec calls it "the
constant coefficient matrix (the correlation coefficients of the perturbation
expansion)"; these are the standard SAFT-γ-Mie correlation coefficients.
All theorems below that depend on the matrix quantify over an arbitrary
matrix; this concrete value is used only for explicit counterexamples and
witnesses. -/
def ckl_coef : Fin 4 → Fin 4 → ℚ :=
  ![![0.81096, 1.7888, -37.578, 92.284],
    ![1.0205, -19.341, 151.26, -463.50],
    ![-1.9057, 22.845, -228.14, 973.92],
    ![1.0885, -6.1962, 106.98, -677.64]]

/-- `zetax_pow[:, j] = zetax ** (j+1)`: the loop
`zetax_pow[:, 0] = zetax; zetax_pow[:, i] = zetax_pow[:, i-1] * zetax_pow[:, 0]`
from `calc_a1s_2d` / `calc_a1s_1d`, one density point at a time. -/
def zetax_pow (z : ℚ) : Nat → ℚ
  | 0 => z
  | j + 1 => zetax_pow z j * z

/-- The vector `(1.0, 1.0/l, 1.0/l**2, 1.0/l**3)` built from one Mie exponent. -/
def lam_vec (lam : ℚ) : Fin 4 → OF :=
  ![some 1, ofDiv (some 1) (some lam), ofDiv (some 1) (some (lam ^ 2)),
    ofDiv (some 1) (some (lam ^ 3))]

/-- Four-term dot product, the length-4 instance of `np.dot`. -/
def dot4 (f g : Fin 4 → OF) : OF :=
  ofAdd (ofAdd (ofAdd (ofMul (f 0) (g 0)) (ofMul (f 1) (g 1)))
    (ofMul (f 2) (g 2))) (ofMul (f 3) (g 3))

/-- `np.dot(ckl_coef, (1, 1/l, 1/l**2, 1/l**3))`, row `j`. -/
def ckl_dot (ckl : Fin 4 → Fin 4 → ℚ) (lam : ℚ) (j : Fin 4) : OF :=
  dot4 (fun m => some (ckl j m)) (lam_vec lam)

/-- `etakl[i, k, l] = np.dot(zetax_pow, np.dot(ckl_coef, (1, 1/l, 1/l², 1/l³)))`
from `calc_a1s_2d`: the effective packing fraction for group pair `(k, l)`
at density point `i`. -/
def etakl_2d (ckl : Fin 4 → Fin 4 → ℚ) (zetax : Nat → ℚ) (l_kl : Nat → Nat → ℚ)
    (i k l : Nat) : OF :=
  dot4 (fun j => some (zetax_pow (zetax i) j.val)) (fun j => ckl_dot ckl (l_kl k l) j)

/-- `etakl[i, k]` from `calc_a1s_1d` (single-bead vector form). -/
def etakl_1d (ckl : Fin 4 → Fin 4 → ℚ) (zetax : Nat → ℚ) (l_k : Nat → ℚ)
    (i k : Nat) : OF :=
  dot4 (fun j => some (zetax_pow (zetax i) j.val)) (fun j => ckl_dot ckl (l_k k) j)

/-- Embedding of `calc_a1s_2d` (gamma_mie_funcs_opt.py, matrix form), entry
`[i, k, l]` of the returned array.  Inputs are the finite float arrays of the
call, represented as total functions of their indices:

    a1s = (1 - etakl/2) / (1 - etakl)**3
          * -2.0 * np.pi * Cmol2seg * ((epsilonkl * dkl**3) / (l_kl - 3.0))
    return (a1s.T * rho).T
-/
def calc_a1s_2d (ckl : Fin 4 → Fin 4 → ℚ) (rho : Nat → ℚ) (Cmol2seg : ℚ)
    (l_kl : Nat → Nat → ℚ) (zetax : Nat → ℚ) (epsilonkl : Nat → Nat → ℚ)
    (dkl : Nat → Nat → ℚ) (i k l : Nat) : OF :=
  let eta := etakl_2d ckl zetax l_kl i k l
  let a1s :=
    ofMul (ofMul (ofMul (ofMul
      (ofDiv (ofSub (some 1) (ofDiv eta (some 2))) (ofPow (ofSub (some 1) eta) 3))
      (some (-2))) (some npPi)) (some Cmol2seg))
      (ofDiv (some (epsilonkl k l * dkl k l ^ 3)) (ofSub (some (l_kl k l)) (some 3)))
  ofMul a1s (some (rho i))

/-- Embedding of `calc_a1s_1d` (gamma_mie_funcs_opt.py, single-bead vector
form), entry `[i, k]` of the returned array. -/
def calc_a1s_1d (ckl : Fin 4 → Fin 4 → ℚ) (rho : Nat → ℚ) (Cmol2seg : ℚ)
    (l_k : Nat → ℚ) (zetax : Nat → ℚ) (epsilonk : Nat → ℚ)
    (dk : Nat → ℚ) (i k : Nat) : OF :=
  let eta := etakl_1d ckl zetax l_k i k
  let a1s :=
    ofMul (ofMul (ofMul (ofMul
      (ofDiv (ofSub (some 1) (ofDiv eta (some 2))) (ofPow (ofSub (some 1) eta) 3))
      (some (-2))) (some npPi)) (some Cmol2seg))
      (ofDiv (some (epsilonk k * dk k ^ 3)) (ofSub (some (l_k k)) (some 3)))
  ofMul a1s (some (rho i))

/-! ## Exact (ℚ-valued) closed forms of the same computations -/

/-- ℚ-level value of `lam_vec` (meaningful when `lam ≠ 0`). -/
def lam_vecQ (lam : ℚ) : Fin 4 → ℚ := ![1, 1 / lam, 1 / lam ^ 2, 1 / lam ^ 3]

/-- ℚ-level four-term dot product. -/
def dot4Q (f g : Fin 4 → ℚ) : ℚ := f 0 * g 0 + f 1 * g 1 + f 2 * g 2 + f 3 * g 3

/-- ℚ-level value of `ckl_dot`. -/
def ckl_dotQ (ckl : Fin 4 → Fin 4 → ℚ) (lam : ℚ) (j : Fin 4) : ℚ :=
  dot4Q (fun m => ckl j m) (lam_vecQ lam)

/-- ℚ-level effective packing fraction: the value of `etakl` at one density
point for one exponent, `Σ_j ζx^(j+1) · (ckl_coef row j ⬝ (1,1/λ,1/λ²,1/λ³))`. -/
def etaQ (ckl : Fin 4 → Fin 4 → ℚ) (z lam : ℚ) : ℚ :=
  dot4Q (fun j => zetax_pow z j.val) (fun j => ckl_dotQ ckl lam j)

/-- ℚ-level value of one output entry of `calc_a1s_2d` / `calc_a1s_1d` on the
non-singular domain: the correction factor `(1 − η/2)/(1 − η)³` is taken at the
effective packing fraction `η = etaQ`, then scaled by
`−2·π·Cmol2seg·ε·d³/(λ−3)` and by the density `r`. -/
def a1s_entryQ (ckl : Fin 4 → Fin 4 → ℚ) (Cmol2seg lam eps dd z r : ℚ) : ℚ :=
  let e := etaQ ckl z lam
  (1 - e / 2) / (1 - e) ^ 3 * (-2) * npPi * Cmol2seg * (eps * dd ^ 3 / (lam - 3)) * r

/-- The output-entry formula exactly as claim C2 words it: powers of ζx up to
degree 3, the fixed 4-term polynomial in those ζx-powers with coefficients
from the constant coefficient matrix applied to `(1, 1/λ, 1/λ², 1/λ³)`,
combined with the correction factor `(1 − ζx/2)/(1 − ζx)³` taken at ζx itself,
scaled by `−2π·Cmol2seg·ε·d³/(λ−3)` and multiplied by `ρ[i]`. -/
def calc_a1s_2d_specFormula (ckl : Fin 4 → Fin 4 → ℚ) (rho : Nat → ℚ)
    (Cmol2seg : ℚ) (l_kl : Nat → Nat → ℚ) (zetax : Nat → ℚ)
    (epsilonkl dkl : Nat → Nat → ℚ) (i k l : Nat) : ℚ :=
  let z := zetax i
  let poly := dot4Q ![1, z, z ^ 2, z ^ 3] (fun j => ckl_dotQ ckl (l_kl k l) j)
  poly * ((1 - z / 2) / (1 - z) ^ 3) * (-2) * npPi * Cmol2seg *
    (epsilonkl k l * dkl k l ^ 3 / (l_kl k l - 3)) * rho i

/-! ## TLVE objective evaluation (`despasito/fit_parameters/data_classes/TLVE.py`)

For the objective-function aggregation NaN and the two infinities must be
kept apart, so floats are the four-constructor type `EF`. -/

/-- A float as needed by `Data.objective`: finite, `+∞`, `−∞` or NaN. -/
inductive EF where
  | fin (q : ℚ)
  | inf
  | ninf
  | nan
  deriving DecidableEq

/-- IEEE addition on `EF` (the `+=` accumulation and `np.nansum`'s sum). -/
def efAdd : EF → EF → EF
  | .nan, _ => .nan
  | _, .nan => .nan
  | .inf, .ninf => .nan
  | .ninf, .inf => .nan
  | .inf, _ => .inf
  | _, .inf => .inf
  | .ninf, _ => .ninf
  | _, .ninf => .ninf
  | .fin a, .fin b => .fin (a + b)

/-- `np.isnan`. -/
def EF.isnanB : EF → Bool
  | .nan => true
  | _ => false

/-- The per-entry test `np.isnan(x) or x == 0.0` of TLVE.py line 183. -/
def nanOrZero (x : EF) : Bool := x.isnanB || x == EF.fin 0

/-- `np.nansum` of the two-entry vector `obj_value`: NaN entries contribute 0. -/
def nansum2 (v0 v1 : EF) : EF :=
  efAdd (if v0.isnanB then EF.fin 0 else v0) (if v1.isnanB then EF.fin 0 else v1)

/-- Embedding of TLVE.py lines 183-188, the reduction of the two-channel score
vector `obj_value` to the returned objective value:

    if all([(np.isnan(x) or x==0.0) for x in obj_value]):
        obj_total = np.inf
    else:
        obj_total = np.nansum(obj_value)
-/
def objAgg (v0 v1 : EF) : EF :=
  if nanOrZero v0 && nanOrZero v1 then EF.inf else nansum2 v0 v1

/-- A Python exception as raised by `Data._thermo_wrapper` / `Data.objective`. -/
inductive PyErr where
  | valueError (msg : String)
  | unboundLocalError
  deriving DecidableEq

/-- Environment of one `Data.objective` call.  `calculation_type`, `hasPlist`,
`hasYilist`, `hasXilist` reflect the constructed `thermodict`; the rest are
oracles for the external collaborators: `thermoRaises` says whether the
thermodynamic prediction call `thermo(self.eos, self.thermodict)` raises
(any exception), and `pScore` / `compScores` are the channel scores that
`ff.obj_function_form` (fit_funcs.py, a file of this repository that is not
under `src/`) returns for the pressure channel and for each component of the
unknown-phase composition channel. -/
structure ObjEnv where
  calculation_type : Option String
  thermoRaises : Bool
  hasPlist : Bool
  hasYilist : Bool
  hasXilist : Bool
  pScore : EF
  compScores : List EF
  deriving DecidableEq

/-- Embedding of `Data._thermo_wrapper` (TLVE.py lines 120-145): for each
known calculation type the `thermo` call is wrapped in a bare `except:` that
re-raises `ValueError(...)`; for any other calculation type the function
falls through to `return output` with `output` unbound, an
`UnboundLocalError`.  Only the success/failure outcome matters downstream;
the predicted values themselves are summarized by the channel-score
oracles. -/
def thermo_wrapper (e : ObjEnv) : Except PyErr Unit :=
  if e.calculation_type = some "phase_xiT" then
    if e.thermoRaises then .error (.valueError "Calculation of calc_xT_phase failed")
    else .ok ()
  else if e.calculation_type = some "phase_yiT" then
    if e.thermoRaises then .error (.valueError "Calculation of calc_yT_phase failed")
    else .ok ()
  else .error .unboundLocalError

/-- The accumulation `obj_value[1] = 0; for i: obj_value[1] += score_i`. -/
def sumScores (l : List EF) : EF := l.foldl efAdd (.fin 0)

/-- Embedding of `Data.objective` (TLVE.py lines 147-188).  The call to
`self._thermo_wrapper()` is NOT wrapped in any `try`: an exception raised
there propagates out of `objective` (modelled by the `Except` bind).  On
success, `obj_value[0]` is the pressure-channel score when `Plist` is
present (else it keeps its `np.zeros` value 0), `obj_value[1]` is the
accumulated composition-channel score for the mode's unknown phase, and the
result is `objAgg obj_value[0] obj_value[1]`. -/
def objective (e : ObjEnv) : Except PyErr EF := do
  let _ ← thermo_wrapper e
  let v0 := if e.hasPlist then e.pScore else .fin 0
  let v1 :=
    if e.calculation_type = some "phase_xiT" then
      (if e.hasYilist then sumScores e.compScores else .fin 0)
    else if e.calculation_type = some "phase_yiT" then
      (if e.hasXilist then sumScores e.compScores else .fin 0)
    else .fin 0
  pure (objAgg v0 v1)

/-! ## TLVE dataset construction (`Data.__init__`, TLVE.py lines 52-118)

Arrays are lists over ℚ (`T`, `P`: one scalar per point; `xi`, `yi`: one
composition vector per point); a weight is a Python float or a list.
Dictionaries with dynamic keys (`weights`) are association lists; the
`thermodict`, whose possible keys are statically known, is a structure of
`Option` fields whose `isSome` encodes key membership. -/

/-- A weight value from the `weights` dictionary: a Python float or a list. -/
inductive WVal where
  | scalar (q : ℚ)
  | arr (l : List ℚ)
  deriving DecidableEq

/-- `d[k] = v` on an association list (replace the first binding or append). -/
def kvSet (k : String) (v : WVal) : List (String × WVal) → List (String × WVal)
  | [] => [(k, v)]
  | (k2, v2) :: rest => if k2 = k then (k, v) :: rest else (k2, v2) :: kvSet k v rest

/-- `d.pop(k)`'s removal effect on an association list. -/
def kvErase (k : String) : List (String × WVal) → List (String × WVal)
  | [] => []
  | (k2, v2) :: rest => if k2 = k then kvErase k rest else (k2, v2) :: kvErase k rest

/-- The input dictionary `data_dict` of a TLVE `Data` construction.  A field
holding `none` models an absent key.  `calculation_type = none` also covers
an explicit `None` value, which the source treats identically. -/
structure DataDict where
  calculation_type : Option String := none
  T : Option (List ℚ) := none
  xi : Option (List (List ℚ)) := none
  yi : Option (List (List ℚ)) := none
  P : Option (List ℚ) := none
  weights : List (String × WVal) := []
  density_dict : Option (List (String × ℚ)) := none
  mpObj : Bool := false
  deriving DecidableEq

/-- The `thermodict` attribute.  Keys are statically known; an `Option` field
is a key that is present exactly when it is `some`; `calculation_type` is
always a key (its value may be Python `None` = `none`); `mpObj` is a key
exactly when the flag is set. -/
structure ThermoDict where
  calculation_type : Option String
  density_dict : Option (List (String × ℚ))
  xilist : Option (List (List ℚ))
  Tlist : Option (List ℚ)
  yilist : Option (List (List ℚ))
  Plist : Option (List ℚ)
  Pguess : Option (List ℚ)
  mpObj : Bool
  deriving DecidableEq

/-- A Python exception raised during `Data.__init__`. -/
inductive InitErr where
  | valueError (msg : String)
  | importError (msg : String)
  | keyError (key : String)
  deriving DecidableEq

/-- The constructed dataset state. -/
structure DState where
  thermodict : ThermoDict
  weights : List (String × WVal)
  npoints : Nat
  deriving DecidableEq

/-- Modelled from the spec: `ExpDataTemplate.__init__`
(`despasito/fit_parameters/interface.py`, a file of this repository that is
not under `src/`).  Per the spec's dataset-ingestion boundary and the class
docstring, the base initializer records the calculation type (the input's
value, `None` when absent), the optional multiprocessing object, and the
user-supplied `weights` dictionary; the data arrays themselves are installed
by `Data.__init__` below.  Whether or not the base class also copied the
input's `density_dict` into `thermodict` is immaterial: line 56 of TLVE.py
overwrites that key unconditionally. -/
def superInit (d : DataDict) : ThermoDict × List (String × WVal) :=
  ({ calculation_type := d.calculation_type, density_dict := none,
     xilist := none, Tlist := none, yilist := none, Plist := none,
     Pguess := none, mpObj := d.mpObj }, d.weights)

/-- One of the repeated weight blocks (TLVE.py lines 62-67, 74-79, 83-88):
`self.weights[newKey] = self.weights.pop(origKey)` when `origKey` is a key of
`weights`, followed by the check
`type(w) != float and len(w) != n` → `raise ValueError(...)`, where `n` is
the length of the data array just stored under `newKey`. -/
def weightBlock (origKey newKey : String) (n : Nat)
    (w : List (String × WVal)) : Except InitErr (List (String × WVal)) :=
  match List.lookup origKey w with
  | none => .ok w
  | some wv =>
    let w2 := kvSet newKey wv (kvErase origKey w)
    match wv with
    | .scalar _ => .ok w2
    | .arr a =>
      if a.length ≠ n then
        .error (.valueError ("Array of weights for " ++ newKey ++
          " values not equal to number of experimental values given."))
      else .ok w2

/-- The rename alone (TLVE.py lines 70-71: the `T` block has no length check). -/
def weightRename (origKey newKey : String)
    (w : List (String × WVal)) : List (String × WVal) :=
  match List.lookup origKey w with
  | none => w
  | some wv => kvSet newKey wv (kvErase origKey w)

/-- TLVE.py lines 60-67: install `xilist` and process its weights. -/
def xiStep (d : DataDict) (s : ThermoDict × List (String × WVal)) :
    Except InitErr (ThermoDict × List (String × WVal)) :=
  match d.xi with
  | none => .ok s
  | some xi => do
    let w ← weightBlock "xi" "xilist" xi.length s.2
    .ok ({ s.1 with xilist := some xi }, w)

/-- TLVE.py lines 68-71: install `Tlist` and rename its weights (no check). -/
def tStep (d : DataDict) (s : ThermoDict × List (String × WVal)) :
    ThermoDict × List (String × WVal) :=
  match d.T with
  | none => s
  | some t => ({ s.1 with Tlist := some t }, weightRename "T" "Tlist" s.2)

/-- TLVE.py lines 72-79: install `yilist` and process its weights. -/
def yiStep (d : DataDict) (s : ThermoDict × List (String × WVal)) :
    Except InitErr (ThermoDict × List (String × WVal)) :=
  match d.yi with
  | none => .ok s
  | some yi => do
    let w ← weightBlock "yi" "yilist" yi.length s.2
    .ok ({ s.1 with yilist := some yi }, w)

/-- TLVE.py lines 80-88: install `Plist` and `Pguess` and process weights. -/
def pStep (d : DataDict) (s : ThermoDict × List (String × WVal)) :
    Except InitErr (ThermoDict × List (String × WVal)) :=
  match d.P with
  | none => .ok s
  | some p => do
    let w ← weightBlock "P" "Plist" p.length s.2
    .ok ({ s.1 with Plist := some p, Pguess := some p }, w)

/-- `true` when the array under `o` has a length different from `n`. -/
def lenBad (o : Option (List α)) (n : Nat) : Bool :=
  match o with
  | none => false
  | some l => l.length != n

/-- TLVE.py lines 90-100: the presence checks, `npoints = len(Tlist)`
(a `KeyError` when `Tlist` is missing), and the equal-length loop over
`["Plist", "xilist", "yilist"]`. -/
def checksStep (s : ThermoDict × List (String × WVal)) :
    Except InitErr ((ThermoDict × List (String × WVal)) × Nat) :=
  if s.1.Plist = none ∧ s.1.Tlist = none then
    .error (.importError "Given TLVE data, values for P and T should have been provided.")
  else if s.1.xilist = none ∨ s.1.yilist = none then
    .error (.importError "Given TLVE data, mole fractions should have been provided.")
  else
    match s.1.Tlist with
    | none => .error (.keyError "Tlist")
    | some t =>
      if lenBad s.1.Plist t.length || lenBad s.1.xilist t.length ||
          lenBad s.1.yilist t.length then
        .error (.valueError "T, P, yi, and xi are not all the same length.")
      else .ok (s, t.length)

/-- TLVE.py lines 102-111: when `calculation_type` is `None`, infer it from
the truthiness (non-emptiness) of `xilist`, then `yilist`. -/
def ctStep (s : ThermoDict × List (String × WVal)) :
    Except InitErr (ThermoDict × List (String × WVal)) :=
  match s.1.calculation_type with
  | some _ => .ok s
  | none =>
    if s.1.xilist.getD [] ≠ [] then
      .ok ({ s.1 with calculation_type := some "phase_xiT" }, s.2)
    else if s.1.yilist.getD [] ≠ [] then
      .ok ({ s.1 with calculation_type := some "phase_yiT" }, s.2)
    else .error (.valueError "Unknown calculation instructions")

/-- The keys of a `thermodict`, for the final `for key in self.thermodict`. -/
def thermodictKeys (td : ThermoDict) : List String :=
  ["calculation_type"]
    ++ (if td.mpObj then ["mpObj"] else [])
    ++ (if td.density_dict.isSome then ["density_dict"] else [])
    ++ (if td.xilist.isSome then ["xilist"] else [])
    ++ (if td.Tlist.isSome then ["Tlist"] else [])
    ++ (if td.yilist.isSome then ["yilist"] else [])
    ++ (if td.Plist.isSome then ["Plist"] else [])
    ++ (if td.Pguess.isSome then ["Pguess"] else [])

/-- TLVE.py lines 113-116: give weight `1.0` to every `thermodict` key that
has no weight yet, except `calculation_type`, `density_dict` and `mpObj`. -/
def weightsFill (ks : List String) (w : List (String × WVal)) :
    List (String × WVal) :=
  match ks with
  | [] => w
  | k :: rest =>
    weightsFill rest
      (if (List.lookup k w) = none ∧
          k ∉ ["calculation_type", "density_dict", "mpObj"] then
        kvSet k (.scalar 1) w
      else w)

/-- Embedding of `Data.__init__` (TLVE.py lines 52-118).  Lines 56-58 set
`self.thermodict["density_dict"] = {}` and then, since `density_dict` is now
a key of `self.thermodict`, merge that fresh empty dict into itself — a
no-op, so the input's `density_dict` options never reach the state. -/
def initData (d : DataDict) : Except InitErr DState := do
  let s0 := superInit d
  let s1 := ({ s0.1 with density_dict := some ([] : List (String × ℚ)) }, s0.2)
  let s2 ← xiStep d s1
  let s3 := tStep d s2
  let s4 ← yiStep d s3
  let s5 ← pStep d s4
  let (s6, n) ← checksStep s5
  let s7 ← ctStep s6
  .ok { thermodict := s7.1,
        weights := weightsFill (thermodictKeys s7.1) s7.2,
        npoints := n }

/-! ## Characterization of `initData` -/

/-- The weight stored under `origKey` is acceptable for a data array of
length `n`: absent, a scalar, or an array of length `n`. -/
def wOkB (origKey : String) (n : Nat) (w : List (String × WVal)) : Bool :=
  match List.lookup origKey w with
  | some (.arr a) => a.length == n
  | _ => true

/-- The exact domain on which `Data.__init__` succeeds (proved below):
acceptable weights for `xi`, `yi`, `P`; `T`, `xi` and `yi` all present;
`P` (when present), `xi` and `yi` of the same length as `T`; and a
calculation type that is either given or inferable from a non-empty `xi` or
`yi`. -/
def validTLVE (d : DataDict) : Bool :=
  (match d.xi with | some xi => wOkB "xi" xi.length d.weights | none => true) &&
  (match d.yi with | some yi => wOkB "yi" yi.length d.weights | none => true) &&
  (match d.P with | some p => wOkB "P" p.length d.weights | none => true) &&
  d.T.isSome && d.xi.isSome && d.yi.isSome &&
  !(lenBad d.P (d.T.getD []).length) &&
  !(lenBad d.xi (d.T.getD []).length) &&
  !(lenBad d.yi (d.T.getD []).length) &&
  (d.calculation_type.isSome || !(d.xi.getD []).isEmpty || !(d.yi.getD []).isEmpty)

/-- The calculation type after construction: the given one, else inferred. -/
def resolvedCT (d : DataDict) : Option String :=
  match d.calculation_type with
  | some c => some c
  | none =>
    if d.xi.getD [] ≠ [] then some "phase_xiT"
    else if d.yi.getD [] ≠ [] then some "phase_yiT"
    else none

/-- The `thermodict` after a successful construction. -/
def finalTD (d : DataDict) : ThermoDict :=
  { calculation_type := resolvedCT d, density_dict := some [],
    xilist := d.xi, Tlist := d.T, yilist := d.yi, Plist := d.P,
    Pguess := d.P, mpObj := d.mpObj }

/-- The weights after the four renaming blocks. -/
def renamedW (d : DataDict) : List (String × WVal) :=
  let w1 := if d.xi.isSome then weightRename "xi" "xilist" d.weights else d.weights
  let w2 := if d.T.isSome then weightRename "T" "Tlist" w1 else w1
  let w3 := if d.yi.isSome then weightRename "yi" "yilist" w2 else w2
  if d.P.isSome then weightRename "P" "Plist" w3 else w3

/-- The state produced by a successful construction. -/
def finalState (d : DataDict) : DState :=
  { thermodict := finalTD d,
    weights := weightsFill (thermodictKeys (finalTD d)) (renamedW d),
    npoints := (d.T.getD []).length }

/-- The key a weight was supplied under before the constructor's renaming. -/
def origKey : String → String
  | "xilist" => "xi"
  | "Tlist" => "T"
  | "yilist" => "yi"
  | "Plist" => "P"
  | k => k

instance exceptDecEq {ε α : Type _} [DecidableEq ε] [DecidableEq α] :
    DecidableEq (Except ε α) := fun a b =>
  match a, b with
  | .error e, .error f =>
    if h : e = f then isTrue (by rw [h])
    else isFalse (fun hh => h (Except.error.inj hh))
  | .error _, .ok _ => isFalse (fun hh => Except.noConfusion hh)
  | .ok _, .error _ => isFalse (fun hh => Except.noConfusion hh)
  | .ok x, .ok y =>
    if h : x = y then isTrue (by rw [h])
    else isFalse (fun hh => h (Except.ok.inj hh))

/-- Example input for the C6 witness: `T` of length 5, `P` of length 4. -/
def exC6 : DataDict :=
  { T := some [1, 2, 3, 4, 5], P := some [1, 2, 3, 4],
    xi := some [[1]], yi := some [[1]] }

/-- Example input for the C7 counterexample: `P`, `xi`, `yi` given, no `T`. -/
def exC7 : DataDict :=
  { P := some [1], xi := some [[1]], yi := some [[1]],
    calculation_type := some "phase_xiT" }

/-- Example input for C8: a `density_dict` option is supplied. -/
def exC8 : DataDict :=
  { calculation_type := some "phase_xiT", T := some [1], xi := some [[1]],
    yi := some [[1]], density_dict := some [("rhoinc", 5)] }

/-- Example input for the C9 witness: no calculation type, non-empty `xi`. -/
def exC9 : DataDict :=
  { calculation_type := none, T := some [1], xi := some [[1]], yi := some [[1]] }

/-- Example input for the C10 witness: all data arrays given, no weights. -/
def exC10 : DataDict :=
  { calculation_type := some "phase_xiT", T := some [1], P := some [2],
    xi := some [[1]], yi := some [[1]] }

@[simp] theorem ofMul_none_right (x : OF) : ofMul x none = none := by
  cases x <;> rfl

@[simp] theorem ofMul_none_left (x : OF) : ofMul none x = none := rfl

@[simp] theorem ofMul_some_some (a b : ℚ) : ofMul (some a) (some b) = some (a * b) := rfl

@[simp] theorem ofAdd_some_some (a b : ℚ) : ofAdd (some a) (some b) = some (a + b) := rfl

@[simp] theorem ofSub_some_some (a b : ℚ) : ofSub (some a) (some b) = some (a - b) := rfl

@[simp] theorem ofDiv_zero (x : OF) : ofDiv x (some 0) = none := by
  cases x <;> simp [ofDiv]

theorem ofDiv_some_some {b : ℚ} (a : ℚ) (hb : b ≠ 0) :
    ofDiv (some a) (some b) = some (a / b) := by
  simp [ofDiv, hb]

theorem ofDiv_some_some' (a : ℚ) {b : ℚ} (hb : b ≠ 0) :
    ofDiv (some a) (some b) = some (a / b) := ofDiv_some_some a hb

@[simp] theorem ofPow_some (a : ℚ) (n : Nat) : ofPow (some a) n = some (a ^ n) := rfl

theorem ckl_dot_eq (ckl : Fin 4 → Fin 4 → ℚ) (lam : ℚ) (j : Fin 4) (h : lam ≠ 0) :
    ckl_dot ckl lam j = some (ckl_dotQ ckl lam j) := by
  have h2 : lam ^ 2 ≠ 0 := pow_ne_zero _ h
  have h3 : lam ^ 3 ≠ 0 := pow_ne_zero _ h
  have e1 : lam_vec lam 1 = some (1 / lam) := ofDiv_some_some 1 h
  have e2 : lam_vec lam 2 = some (1 / lam ^ 2) := ofDiv_some_some 1 h2
  have e3 : lam_vec lam 3 = some (1 / lam ^ 3) := ofDiv_some_some 1 h3
  unfold ckl_dot dot4
  rw [show lam_vec lam 0 = some 1 from rfl, e1, e2, e3]
  rfl

theorem etakl_2d_eq (ckl : Fin 4 → Fin 4 → ℚ) (zetax : Nat → ℚ) (l_kl : Nat → Nat → ℚ)
    (i k l : Nat) (h : l_kl k l ≠ 0) :
    etakl_2d ckl zetax l_kl i k l = some (etaQ ckl (zetax i) (l_kl k l)) := by
  unfold etakl_2d
  rw [show (fun j => ckl_dot ckl (l_kl k l) j) =
      (fun j => some (ckl_dotQ ckl (l_kl k l) j)) from
    funext (fun j => ckl_dot_eq ckl (l_kl k l) j h)]
  rfl

theorem etakl_1d_eq (ckl : Fin 4 → Fin 4 → ℚ) (zetax : Nat → ℚ) (l_k : Nat → ℚ)
    (i k : Nat) (h : l_k k ≠ 0) :
    etakl_1d ckl zetax l_k i k = some (etaQ ckl (zetax i) (l_k k)) := by
  unfold etakl_1d
  rw [show (fun j => ckl_dot ckl (l_k k) j) =
      (fun j => some (ckl_dotQ ckl (l_k k) j)) from
    funext (fun j => ckl_dot_eq ckl (l_k k) j h)]
  rfl

/-- Closed form of `calc_a1s_2d` on the non-singular domain. -/
theorem calc_a1s_2d_closed_form (ckl : Fin 4 → Fin 4 → ℚ) (rho : Nat → ℚ)
    (Cmol2seg : ℚ) (l_kl : Nat → Nat → ℚ) (zetax : Nat → ℚ)
    (epsilonkl dkl : Nat → Nat → ℚ) (i k l : Nat)
    (hlam0 : l_kl k l ≠ 0) (hlam3 : l_kl k l ≠ 3)
    (heta : etaQ ckl (zetax i) (l_kl k l) ≠ 1) :
    calc_a1s_2d ckl rho Cmol2seg l_kl zetax epsilonkl dkl i k l =
      some (a1s_entryQ ckl Cmol2seg (l_kl k l) (epsilonkl k l) (dkl k l)
        (zetax i) (rho i)) := by
  have h2 : (2 : ℚ) ≠ 0 := two_ne_zero
  have he : ((1 : ℚ) - etaQ ckl (zetax i) (l_kl k l)) ^ 3 ≠ 0 :=
    pow_ne_zero _ (sub_ne_zero.mpr (Ne.symm heta))
  have h3 : l_kl k l - 3 ≠ 0 := sub_ne_zero.mpr hlam3
  unfold calc_a1s_2d
  rw [etakl_2d_eq ckl zetax l_kl i k l hlam0]
  simp only [ofDiv_some_some', ofSub_some_some, ofPow_some, ofMul_some_some,
    h2, he, h3, ne_eq, not_false_eq_true]
  rfl

/-- Closed form of `calc_a1s_1d` on the non-singular domain. -/
theorem calc_a1s_1d_closed_form (ckl : Fin 4 → Fin 4 → ℚ) (rho : Nat → ℚ)
    (Cmol2seg : ℚ) (l_k : Nat → ℚ) (zetax : Nat → ℚ)
    (epsilonk dk : Nat → ℚ) (i k : Nat)
    (hlam0 : l_k k ≠ 0) (hlam3 : l_k k ≠ 3)
    (heta : etaQ ckl (zetax i) (l_k k) ≠ 1) :
    calc_a1s_1d ckl rho Cmol2seg l_k zetax epsilonk dk i k =
      some (a1s_entryQ ckl Cmol2seg (l_k k) (epsilonk k) (dk k)
        (zetax i) (rho i)) := by
  have h2 : (2 : ℚ) ≠ 0 := two_ne_zero
  have he : ((1 : ℚ) - etaQ ckl (zetax i) (l_k k)) ^ 3 ≠ 0 :=
    pow_ne_zero _ (sub_ne_zero.mpr (Ne.symm heta))
  have h3 : l_k k - 3 ≠ 0 := sub_ne_zero.mpr hlam3
  unfold calc_a1s_1d
  rw [etakl_1d_eq ckl zetax l_k i k hlam0]
  simp only [ofDiv_some_some', ofSub_some_some, ofPow_some, ofMul_some_some,
    h2, he, h3, ne_eq, not_false_eq_true]
  rfl

/-! ## Claims C1, C2, C5 -/

/-- Claim C1, counterexample: a call to `calc_a1s_2d` in which the exponent
matrix entry `l_kl[0,0]` equals 3 does not fail with a `DomainError` (the
source contains no domain check and no raise at all); it returns normally,
and the returned entry is non-finite (`none`, i.e. an IEEE ∞/NaN produced by
the division by `l_kl - 3 = 0`) — exactly the silent ∞/NaN the claim rules
out. -/
theorem claim_C1_counterexample :
    calc_a1s_2d ckl_coef (fun _ => 1) 2 (fun _ _ => 3) (fun _ => 1/3)
      (fun _ _ => 2) (fun _ _ => 1) 0 0 0 = none := by
  norm_num [calc_a1s_2d, etakl_2d, dot4, ckl_dot, lam_vec, zetax_pow, ckl_coef,
    npPi, ofMul, ofAdd, ofSub, ofDiv, ofPow, Matrix.cons_val_zero, Matrix.cons_val_one,
    Matrix.head_cons, Matrix.cons_val_two, Matrix.tail_cons, Matrix.cons_val_three]

/-- Claim C1 as amended: the perturbation-term calculators perform no domain
validation and never raise; whenever an exponent entry equals 3, the
corresponding output entries are non-finite (∞/NaN) and are returned
silently.  (A packing fraction `ζx ≥ 1` does not in general produce a
non-finite entry: the correction-factor pole is at effective packing
`η = 1`, not at `ζx = 1`.) -/
theorem claim_C1_amended :
    (∀ (ckl : Fin 4 → Fin 4 → ℚ) (rho : Nat → ℚ) (Cmol2seg : ℚ)
       (l_kl : Nat → Nat → ℚ) (zetax : Nat → ℚ) (epsilonkl dkl : Nat → Nat → ℚ)
       (i k l : Nat), l_kl k l = 3 →
       calc_a1s_2d ckl rho Cmol2seg l_kl zetax epsilonkl dkl i k l = none) ∧
    (∀ (ckl : Fin 4 → Fin 4 → ℚ) (rho : Nat → ℚ) (Cmol2seg : ℚ)
       (l_k : Nat → ℚ) (zetax : Nat → ℚ) (epsilonk dk : Nat → ℚ)
       (i k : Nat), l_k k = 3 →
       calc_a1s_1d ckl rho Cmol2seg l_k zetax epsilonk dk i k = none) := by
  constructor
  · intro ckl rho Cmol2seg l_kl zetax epsilonkl dkl i k l h
    simp [calc_a1s_2d, h, sub_self]
  · intro ckl rho Cmol2seg l_k zetax epsilonk dk i k h
    simp [calc_a1s_1d, h, sub_self]

/-- Witness for `claim_C1_amended` at a concrete input. -/
theorem claim_C1_amended_witness :
    calc_a1s_2d ckl_coef (fun _ => 2) 1 (fun _ _ => 3) (fun _ => 1/2)
      (fun _ _ => 1) (fun _ _ => 1) 0 0 0 = none ∧
    calc_a1s_1d ckl_coef (fun _ => 2) 1 (fun _ => 3) (fun _ => 1/2)
      (fun _ => 1) (fun _ => 1) 0 0 = none :=
  ⟨claim_C1_amended.1 ckl_coef _ 1 _ _ _ _ 0 0 0 rfl,
   claim_C1_amended.2 ckl_coef _ 1 _ _ _ _ 0 0 rfl⟩

/-- Claim C2, counterexample: at the concrete input `λ = 4`, `ζx = 1/2`,
`ρ = Cmol2seg = ε = d = 1`, the output of `calc_a1s_2d` differs from the
formula as the claim words it (`calc_a1s_2d_specFormula`, which takes the
correction factor at `ζx` itself and the ζx-powers up to degree 3): in the
source the correction factor `(1 − η/2)/(1 − η)³` is taken at the
effective packing fraction `η` — the value of the 4-term polynomial, with
ζx-powers of degree 1 through 4 — and the polynomial value does not appear
as a separate factor. -/
theorem claim_C2_counterexample :
    calc_a1s_2d ckl_coef (fun _ => 1) 1 (fun _ _ => 4) (fun _ => 1/2)
      (fun _ _ => 1) (fun _ _ => 1) 0 0 0 ≠
    some (calc_a1s_2d_specFormula ckl_coef (fun _ => 1) 1 (fun _ _ => 4)
      (fun _ => 1/2) (fun _ _ => 1) (fun _ _ => 1) 0 0 0) := by
  norm_num [calc_a1s_2d, calc_a1s_2d_specFormula, etakl_2d, dot4, dot4Q, ckl_dot,
    ckl_dotQ, lam_vec, lam_vecQ, zetax_pow, etaQ, ckl_coef, npPi, ofMul, ofAdd,
    ofSub, ofDiv, ofPow, a1s_entryQ, Matrix.cons_val_zero, Matrix.cons_val_one,
    Matrix.head_cons, Matrix.cons_val_two, Matrix.tail_cons, Matrix.cons_val_three]

/-- Claim C2 as amended: on the non-singular domain (exponent entry `λ ∉ {0, 3}`
and effective packing fraction `η ≠ 1`), the output of either calculator at
density index `i` and group pair `(k,l)` (resp. group `k`) equals: build the
powers `ζx, ζx², ζx³, ζx⁴`; evaluate the 4-term polynomial
`η = Σ_j ζx^(j+1) · (row j of the coefficient matrix ⬝ (1, 1/λ, 1/λ², 1/λ³))`;
take the correction factor `(1 − η/2)/(1 − η)³` at `η`; scale by
`−2·π·Cmol2seg·ε·d³/(λ − 3)`; and multiply by `ρ[i]` — the ℚ-level value
`a1s_entryQ`. -/
theorem claim_C2_amended :
    (∀ (ckl : Fin 4 → Fin 4 → ℚ) (rho : Nat → ℚ) (Cmol2seg : ℚ)
       (l_kl : Nat → Nat → ℚ) (zetax : Nat → ℚ) (epsilonkl dkl : Nat → Nat → ℚ)
       (i k l : Nat), l_kl k l ≠ 0 → l_kl k l ≠ 3 →
       etaQ ckl (zetax i) (l_kl k l) ≠ 1 →
       calc_a1s_2d ckl rho Cmol2seg l_kl zetax epsilonkl dkl i k l =
         some (a1s_entryQ ckl Cmol2seg (l_kl k l) (epsilonkl k l) (dkl k l)
           (zetax i) (rho i))) ∧
    (∀ (ckl : Fin 4 → Fin 4 → ℚ) (rho : Nat → ℚ) (Cmol2seg : ℚ)
       (l_k : Nat → ℚ) (zetax : Nat → ℚ) (epsilonk dk : Nat → ℚ)
       (i k : Nat), l_k k ≠ 0 → l_k k ≠ 3 →
       etaQ ckl (zetax i) (l_k k) ≠ 1 →
       calc_a1s_1d ckl rho Cmol2seg l_k zetax epsilonk dk i k =
         some (a1s_entryQ ckl Cmol2seg (l_k k) (epsilonk k) (dk k)
           (zetax i) (rho i))) :=
  ⟨fun ckl rho C l_kl z e d i k l h0 h3 he =>
     calc_a1s_2d_closed_form ckl rho C l_kl z e d i k l h0 h3 he,
   fun ckl rho C l_k z e d i k h0 h3 he =>
     calc_a1s_1d_closed_form ckl rho C l_k z e d i k h0 h3 he⟩

/-- Witness for `claim_C2_amended` at a concrete input. -/
theorem claim_C2_amended_witness :
    calc_a1s_2d ckl_coef (fun _ => 1) 1 (fun _ _ => 4) (fun _ => 1/2)
      (fun _ _ => 1) (fun _ _ => 1) 0 0 0 =
      some (a1s_entryQ ckl_coef 1 4 1 1 (1/2) 1) ∧
    calc_a1s_1d ckl_coef (fun _ => 1) 1 (fun _ => 4) (fun _ => 1/2)
      (fun _ => 1) (fun _ => 1) 0 0 =
      some (a1s_entryQ ckl_coef 1 4 1 1 (1/2) 1) :=
  ⟨claim_C2_amended.1 ckl_coef _ 1 _ _ _ _ 0 0 0 (by norm_num) (by norm_num)
     (by norm_num [etaQ, dot4Q, ckl_dotQ, lam_vecQ, zetax_pow, ckl_coef,
       Matrix.cons_val_zero, Matrix.cons_val_one, Matrix.head_cons,
       Matrix.cons_val_two, Matrix.tail_cons, Matrix.cons_val_three]),
   claim_C2_amended.2 ckl_coef _ 1 _ _ _ _ 0 0 (by norm_num) (by norm_num)
     (by norm_num [etaQ, dot4Q, ckl_dotQ, lam_vecQ, zetax_pow, ckl_coef,
       Matrix.cons_val_zero, Matrix.cons_val_one, Matrix.head_cons,
       Matrix.cons_val_two, Matrix.tail_cons, Matrix.cons_val_three])⟩

/-- Claim C5 (confirmed): for a system with exactly one group, with the 1×1
exponent, well-depth and diameter matrices filled with the scalars `lam`,
`eps`, `dd` (`λ ≠ 3`, packing fractions `< 1`), the matrix form
`calc_a1s_2d` at entry `[i, 0, 0]` equals the vector form `calc_a1s_1d` at
entry `[i, 0]`, for every density array and conversion factor. -/
theorem claim_C5 (ckl : Fin 4 → Fin 4 → ℚ) (rho : Nat → ℚ)
    (Cmol2seg lam eps dd : ℚ) (zetax : Nat → ℚ) (i : Nat)
    (hlam : lam ≠ 3) (hz : ∀ n, zetax n < 1) :
    calc_a1s_2d ckl rho Cmol2seg (fun _ _ => lam) zetax (fun _ _ => eps)
      (fun _ _ => dd) i 0 0 =
    calc_a1s_1d ckl rho Cmol2seg (fun _ => lam) zetax (fun _ => eps)
      (fun _ => dd) i 0 := rfl

/-- Witness for `claim_C5` at a concrete input. -/
theorem claim_C5_witness :
    calc_a1s_2d ckl_coef (fun _ => 1) 1 (fun _ _ => 4) (fun _ => 1/2)
      (fun _ _ => 1) (fun _ _ => 1) 0 0 0 =
    calc_a1s_1d ckl_coef (fun _ => 1) 1 (fun _ => 4) (fun _ => 1/2)
      (fun _ => 1) (fun _ => 1) 0 0 :=
  claim_C5 ckl_coef (fun _ => 1) 1 4 1 1 (fun _ => 1/2) 0 (by norm_num)
    (fun n => by norm_num)

/-! ## Claims C3 and C4 -/

/-- Claim C3, counterexample: with a pressure-channel score of `+∞` (neither
NaN nor zero) and a composition-channel score of 1, `objective` returns
`+∞` even though not every entry of the two-channel score vector is NaN or
exactly zero — the "only if" direction of the claim fails, because
`np.nansum` itself produces `+∞` when a channel score is `+∞`. -/
theorem claim_C3_counterexample :
    objective { calculation_type := some "phase_xiT", thermoRaises := false,
                hasPlist := true, hasYilist := true, hasXilist := false,
                pScore := EF.inf, compScores := [EF.fin 1] } = .ok EF.inf ∧
    nanOrZero EF.inf = false := by
  constructor
  · rfl
  · rfl

/-- Claim C3 as amended: the returned score is `+∞` if every entry of the
two-channel score vector is NaN or exactly zero; otherwise it is the
`np.nansum` of the two channels (NaN entries contributing 0) — which is
itself `+∞` exactly when a non-NaN channel score is `+∞`.  When neither
channel score is `+∞`, the claim's "if and only if" holds as stated. -/
theorem claim_C3_amended (v0 v1 : EF) (h0 : v0 ≠ EF.inf) (h1 : v1 ≠ EF.inf) :
    (objAgg v0 v1 = EF.inf ↔ (nanOrZero v0 = true ∧ nanOrZero v1 = true)) ∧
    (¬(nanOrZero v0 = true ∧ nanOrZero v1 = true) →
      objAgg v0 v1 = nansum2 v0 v1) := by
  constructor
  · constructor
    · intro h
      by_contra hno
      rw [not_and_or] at hno
      cases v0 <;> cases v1 <;>
        simp_all [objAgg, nanOrZero, nansum2, efAdd, EF.isnanB]
    · intro ⟨a, b⟩
      simp [objAgg, a, b]
  · intro hno
    have : ¬(nanOrZero v0 && nanOrZero v1) = true := by
      simp only [Bool.and_eq_true]
      exact hno
    simp [objAgg, this]

/-- Witness for `claim_C3_amended` at concrete channel scores. -/
theorem claim_C3_amended_witness :
    ((objAgg (EF.fin 5) EF.nan = EF.inf ↔
       (nanOrZero (EF.fin 5) = true ∧ nanOrZero EF.nan = true)) ∧
     (¬(nanOrZero (EF.fin 5) = true ∧ nanOrZero EF.nan = true) →
       objAgg (EF.fin 5) EF.nan = nansum2 (EF.fin 5) EF.nan)) :=
  claim_C3_amended (EF.fin 5) EF.nan (by decide) (by decide)

/-- Claim C4, counterexample: when the thermodynamic prediction call raises
(`thermoRaises = true`) in mode `phase_xiT`, `objective` does not return
`+∞`: `_thermo_wrapper` catches the exception and re-raises
`ValueError("Calculation of calc_xT_phase failed")`, and `objective` calls
`_thermo_wrapper` outside any `try`, so the exception propagates to the
caller. -/
theorem claim_C4_counterexample :
    objective { calculation_type := some "phase_xiT", thermoRaises := true,
                hasPlist := true, hasYilist := true, hasXilist := false,
                pScore := EF.fin 0, compScores := [] } =
      .error (.valueError "Calculation of calc_xT_phase failed") := by
  rfl

/-- Claim C4 as amended: for either recognized calculation type, an exception
in the thermodynamic prediction call is caught inside `_thermo_wrapper` and
re-raised as a `ValueError`, which `objective` propagates to its caller
instead of converting it to an infinite score; the conversion to `+∞`, if
any, happens outside this class. -/
theorem claim_C4_amended (e : ObjEnv) (hr : e.thermoRaises = true)
    (hct : e.calculation_type = some "phase_xiT" ∨
           e.calculation_type = some "phase_yiT") :
    ∃ msg, objective e = .error (.valueError msg) := by
  rcases hct with h | h
  · exact ⟨"Calculation of calc_xT_phase failed", by
      simp [objective, thermo_wrapper, h, hr, Bind.bind, Except.bind]⟩
  · exact ⟨"Calculation of calc_yT_phase failed", by
      simp [objective, thermo_wrapper, h, hr, Bind.bind, Except.bind]⟩

/-- Witness for `claim_C4_amended` at a concrete environment. -/
theorem claim_C4_amended_witness :
    ∃ msg,
      objective { calculation_type := some "phase_yiT", thermoRaises := true,
                  hasPlist := false, hasYilist := false, hasXilist := true,
                  pScore := EF.fin 2, compScores := [EF.fin 1] } =
        .error (.valueError msg) :=
  claim_C4_amended _ rfl (Or.inr rfl)

theorem weightBlock_eq (o nk : String) (n : Nat) (w : List (String × WVal)) :
    weightBlock o nk n w =
      if wOkB o n w then .ok (weightRename o nk w)
      else .error (.valueError ("Array of weights for " ++ nk ++
        " values not equal to number of experimental values given.")) := by
  unfold weightBlock wOkB weightRename
  cases h : List.lookup o w with
  | none => simp
  | some wv =>
    cases wv with
    | scalar q => simp
    | arr a =>
      by_cases hl : a.length = n <;> simp [hl]

theorem except_bind_ok {ε α β : Type _} {x : Except ε α} {f : α → Except ε β}
    {b : β} (h : x >>= f = .ok b) : ∃ a, x = .ok a ∧ f a = .ok b := by
  cases x with
  | error e => exact absurd h (by simp [Bind.bind, Except.bind])
  | ok a => exact ⟨a, rfl, h⟩

theorem xiStep_ok_inv {d : DataDict} {s s2 : ThermoDict × List (String × WVal)}
    (h : xiStep d s = .ok s2) :
    (d.xi = none ∧ s2 = s) ∨
    (∃ x, d.xi = some x ∧ wOkB "xi" x.length s.2 = true ∧
      s2 = ({ s.1 with xilist := some x }, weightRename "xi" "xilist" s.2)) := by
  unfold xiStep at h
  cases hx : d.xi with
  | none => rw [hx] at h; exact Or.inl ⟨rfl, (Except.ok.inj h).symm⟩
  | some x =>
    simp only [hx] at h
    obtain ⟨w, hw, hret⟩ := except_bind_ok h
    rw [weightBlock_eq] at hw
    by_cases hok : wOkB "xi" x.length s.2 = true
    · rw [if_pos hok] at hw
      refine Or.inr ⟨x, rfl, hok, ?_⟩
      rw [← Except.ok.inj hw] at hret
      exact (Except.ok.inj hret).symm
    · rw [if_neg hok] at hw
      exact absurd hw (by simp)

theorem yiStep_ok_inv {d : DataDict} {s s2 : ThermoDict × List (String × WVal)}
    (h : yiStep d s = .ok s2) :
    (d.yi = none ∧ s2 = s) ∨
    (∃ y, d.yi = some y ∧ wOkB "yi" y.length s.2 = true ∧
      s2 = ({ s.1 with yilist := some y }, weightRename "yi" "yilist" s.2)) := by
  unfold yiStep at h
  cases hy : d.yi with
  | none => rw [hy] at h; exact Or.inl ⟨rfl, (Except.ok.inj h).symm⟩
  | some y =>
    simp only [hy] at h
    obtain ⟨w, hw, hret⟩ := except_bind_ok h
    rw [weightBlock_eq] at hw
    by_cases hok : wOkB "yi" y.length s.2 = true
    · rw [if_pos hok] at hw
      refine Or.inr ⟨y, rfl, hok, ?_⟩
      rw [← Except.ok.inj hw] at hret
      exact (Except.ok.inj hret).symm
    · rw [if_neg hok] at hw
      exact absurd hw (by simp)

theorem pStep_ok_inv {d : DataDict} {s s2 : ThermoDict × List (String × WVal)}
    (h : pStep d s = .ok s2) :
    (d.P = none ∧ s2 = s) ∨
    (∃ p, d.P = some p ∧ wOkB "P" p.length s.2 = true ∧
      s2 = ({ s.1 with Plist := some p, Pguess := some p },
            weightRename "P" "Plist" s.2)) := by
  unfold pStep at h
  cases hp : d.P with
  | none => rw [hp] at h; exact Or.inl ⟨rfl, (Except.ok.inj h).symm⟩
  | some p =>
    simp only [hp] at h
    obtain ⟨w, hw, hret⟩ := except_bind_ok h
    rw [weightBlock_eq] at hw
    by_cases hok : wOkB "P" p.length s.2 = true
    · rw [if_pos hok] at hw
      refine Or.inr ⟨p, rfl, hok, ?_⟩
      rw [← Except.ok.inj hw] at hret
      exact (Except.ok.inj hret).symm
    · rw [if_neg hok] at hw
      exact absurd hw (by simp)

theorem checksStep_ok_inv {s : ThermoDict × List (String × WVal)}
    {out : (ThermoDict × List (String × WVal)) × Nat}
    (h : checksStep s = .ok out) :
    ∃ t, s.1.Tlist = some t ∧ out = (s, t.length) ∧
      s.1.xilist ≠ none ∧ s.1.yilist ≠ none ∧
      lenBad s.1.Plist t.length = false ∧ lenBad s.1.xilist t.length = false ∧
      lenBad s.1.yilist t.length = false := by
  unfold checksStep at h
  by_cases h1 : s.1.Plist = none ∧ s.1.Tlist = none
  · rw [if_pos h1] at h; exact absurd h (by simp)
  rw [if_neg h1] at h
  by_cases h2 : s.1.xilist = none ∨ s.1.yilist = none
  · rw [if_pos h2] at h; exact absurd h (by simp)
  rw [if_neg h2] at h
  rw [not_or] at h2
  cases ht : s.1.Tlist with
  | none =>
    simp only [ht] at h
    exact absurd h (by simp)
  | some t =>
    simp only [ht] at h
    refine ⟨t, rfl, ?_⟩
    by_cases hl : (lenBad s.1.Plist t.length || lenBad s.1.xilist t.length ||
        lenBad s.1.yilist t.length) = true
    · rw [if_pos hl] at h
      exact absurd h (by simp)
    · rw [if_neg hl] at h
      simp only [Bool.or_eq_true, not_or, Bool.not_eq_true] at hl
      exact ⟨(Except.ok.inj h).symm, h2.1, h2.2, hl.1.1, hl.1.2, hl.2⟩

theorem lookup_kvSet_self (k : String) (v : WVal) (w : List (String × WVal)) :
    List.lookup k (kvSet k v w) = some v := by
  induction w with
  | nil => simp [kvSet, List.lookup]
  | cons a rest ih =>
    obtain ⟨ka, va⟩ := a
    by_cases hk : ka = k
    · subst hk; simp [kvSet, List.lookup]
    · simp only [kvSet, if_neg hk, List.lookup]
      rw [show (k == ka) = false from beq_eq_false_iff_ne.mpr (Ne.symm hk)]
      exact ih

theorem lookup_kvSet_ne {k k2 : String} (v : WVal) (w : List (String × WVal))
    (hne : k ≠ k2) : List.lookup k (kvSet k2 v w) = List.lookup k w := by
  induction w with
  | nil => simp [kvSet, List.lookup, beq_eq_false_iff_ne.mpr hne]
  | cons a rest ih =>
    obtain ⟨ka, va⟩ := a
    by_cases hk : ka = k2
    · subst hk
      simp only [kvSet, if_pos rfl, List.lookup]
      rw [show (k == ka) = false from beq_eq_false_iff_ne.mpr hne]
    · simp only [kvSet, if_neg hk, List.lookup]
      by_cases hka : k = ka
      · subst hka; simp
      · rw [show (k == ka) = false from beq_eq_false_iff_ne.mpr hka]
        exact ih

theorem lookup_kvErase_ne {k k2 : String} (w : List (String × WVal))
    (hne : k ≠ k2) : List.lookup k (kvErase k2 w) = List.lookup k w := by
  induction w with
  | nil => simp [kvErase]
  | cons a rest ih =>
    obtain ⟨ka, va⟩ := a
    by_cases hk : ka = k2
    · subst hk
      simp only [kvErase, if_pos rfl, List.lookup,
        show (k == ka) = false from beq_eq_false_iff_ne.mpr hne]
      exact ih
    · simp only [kvErase, if_neg hk, List.lookup]
      by_cases hka : k = ka
      · subst hka; simp
      · rw [show (k == ka) = false from beq_eq_false_iff_ne.mpr hka]
        exact ih

theorem lookup_weightRename_ne {k o nk : String} (w : List (String × WVal))
    (ho : k ≠ o) (hnk : k ≠ nk) :
    List.lookup k (weightRename o nk w) = List.lookup k w := by
  unfold weightRename
  cases List.lookup o w with
  | none => rfl
  | some wv => rw [lookup_kvSet_ne _ _ hnk, lookup_kvErase_ne _ ho]

theorem wOkB_weightRename {k o nk : String} (n : Nat) (w : List (String × WVal))
    (ho : k ≠ o) (hnk : k ≠ nk) :
    wOkB k n (weightRename o nk w) = wOkB k n w := by
  unfold wOkB
  rw [lookup_weightRename_ne w ho hnk]

theorem ctStep_ok_inv {s s2 : ThermoDict × List (String × WVal)}
    (h : ctStep s = .ok s2) :
    (∃ c, s.1.calculation_type = some c ∧ s2 = s) ∨
    (s.1.calculation_type = none ∧
      ((s.1.xilist.getD [] ≠ [] ∧
         s2 = ({ s.1 with calculation_type := some "phase_xiT" }, s.2)) ∨
       (s.1.xilist.getD [] = [] ∧ s.1.yilist.getD [] ≠ [] ∧
         s2 = ({ s.1 with calculation_type := some "phase_yiT" }, s.2)))) := by
  unfold ctStep at h
  cases hc : s.1.calculation_type with
  | some c => rw [hc] at h; exact Or.inl ⟨c, rfl, (Except.ok.inj h).symm⟩
  | none =>
    rw [hc] at h
    refine Or.inr ⟨rfl, ?_⟩
    by_cases hx : s.1.xilist.getD [] ≠ []
    · rw [if_pos hx] at h
      exact Or.inl ⟨hx, (Except.ok.inj h).symm⟩
    · rw [if_neg hx] at h
      rw [not_not] at hx
      by_cases hy : s.1.yilist.getD [] ≠ []
      · rw [if_pos hy] at h
        exact Or.inr ⟨hx, hy, (Except.ok.inj h).symm⟩
      · rw [if_neg hy] at h
        exact absurd h (by simp)

/-- Soundness of construction: a successful `Data.__init__` implies the
domain `validTLVE` and fully determines the state. -/
theorem initData_ok_state {d : DataDict} {s : DState}
    (h : initData d = .ok s) : validTLVE d = true ∧ s = finalState d := by
  unfold initData at h
  obtain ⟨s2, hxi, h⟩ := except_bind_ok h
  obtain ⟨s4, hyi, h⟩ := except_bind_ok h
  obtain ⟨s5, hp, h⟩ := except_bind_ok h
  obtain ⟨pr, hck, h⟩ := except_bind_ok h
  obtain ⟨s6, n⟩ := pr
  obtain ⟨s7, hct, h⟩ := except_bind_ok h
  replace h : s = ⟨s7.1, weightsFill (thermodictKeys s7.1) s7.2, n⟩ :=
    (Except.ok.inj h).symm
  obtain ⟨t, ht, hpr, hxne, hyne, hlp, hlx, hly⟩ := checksStep_ok_inv hck
  have h6 : s6 = s5 := congrArg Prod.fst hpr
  subst h6
  have hn : n = t.length := congrArg Prod.snd hpr
  subst hn
  rcases xiStep_ok_inv hxi with ⟨hx, rfl⟩ | ⟨x, hx, hwx, rfl⟩ <;>
    rcases hT : d.T with _ | t0 <;>
    simp only [tStep, hT] at hyi <;>
    rcases yiStep_ok_inv hyi with ⟨hy, rfl⟩ | ⟨y, hy, hwy, rfl⟩ <;>
    rcases pStep_ok_inv hp with ⟨hP, rfl⟩ | ⟨p, hP, hwp, rfl⟩
  all_goals try simp [superInit] at hxne
  all_goals try simp [superInit] at hyne
  all_goals try simp [superInit] at ht
  all_goals subst ht
  -- two live goals remain: d.xi = some x, d.T = some t0, d.yi = some y,
  -- and d.P = none (first) or d.P = some p (second)
  · rcases ctStep_ok_inv hct with ⟨c, hc, rfl⟩ | ⟨hc, ⟨hxe, rfl⟩ | ⟨hxe, hye, rfl⟩⟩
    · simp only [superInit] at hwx hwy hc
      simp [superInit, lenBad] at hlx hly
      rw [wOkB_weightRename _ _ (by decide) (by decide),
          wOkB_weightRename _ _ (by decide) (by decide)] at hwy
      subst h
      refine ⟨?_, ?_⟩
      · simp_all [validTLVE, lenBad, List.isEmpty_iff]
      · simp [finalState, finalTD, resolvedCT, renamedW, thermodictKeys, superInit,
          hx, hT, hy, hP, hc]
    · simp only [superInit, Option.getD_some] at hwx hwy hc hxe
      simp [superInit, lenBad] at hlx hly
      rw [wOkB_weightRename _ _ (by decide) (by decide),
          wOkB_weightRename _ _ (by decide) (by decide)] at hwy
      subst h
      refine ⟨?_, ?_⟩
      · simp_all [validTLVE, lenBad, List.isEmpty_iff]
      · simp [finalState, finalTD, resolvedCT, renamedW, thermodictKeys, superInit,
          hx, hT, hy, hP, hc, hxe]
    · simp only [superInit, Option.getD_some] at hwx hwy hc hxe hye
      simp [superInit, lenBad] at hlx hly
      rw [wOkB_weightRename _ _ (by decide) (by decide),
          wOkB_weightRename _ _ (by decide) (by decide)] at hwy
      subst h
      refine ⟨?_, ?_⟩
      · simp_all [validTLVE, lenBad, List.isEmpty_iff]
      · simp [finalState, finalTD, resolvedCT, renamedW, thermodictKeys, superInit,
          hx, hT, hy, hP, hc, hxe, hye]
  · rcases ctStep_ok_inv hct with ⟨c, hc, rfl⟩ | ⟨hc, ⟨hxe, rfl⟩ | ⟨hxe, hye, rfl⟩⟩
    · simp only [superInit] at hwx hwy hwp hc
      simp [superInit, lenBad] at hlp hlx hly
      rw [wOkB_weightRename _ _ (by decide) (by decide),
          wOkB_weightRename _ _ (by decide) (by decide)] at hwy
      rw [wOkB_weightRename _ _ (by decide) (by decide),
          wOkB_weightRename _ _ (by decide) (by decide),
          wOkB_weightRename _ _ (by decide) (by decide)] at hwp
      subst h
      refine ⟨?_, ?_⟩
      · simp_all [validTLVE, lenBad, List.isEmpty_iff]
      · simp [finalState, finalTD, resolvedCT, renamedW, thermodictKeys, superInit,
          hx, hT, hy, hP, hc]
    · simp only [superInit, Option.getD_some] at hwx hwy hwp hc hxe
      simp [superInit, lenBad] at hlp hlx hly
      rw [wOkB_weightRename _ _ (by decide) (by decide),
          wOkB_weightRename _ _ (by decide) (by decide)] at hwy
      rw [wOkB_weightRename _ _ (by decide) (by decide),
          wOkB_weightRename _ _ (by decide) (by decide),
          wOkB_weightRename _ _ (by decide) (by decide)] at hwp
      subst h
      refine ⟨?_, ?_⟩
      · simp_all [validTLVE, lenBad, List.isEmpty_iff]
      · simp [finalState, finalTD, resolvedCT, renamedW, thermodictKeys, superInit,
          hx, hT, hy, hP, hc, hxe]
    · simp only [superInit, Option.getD_some] at hwx hwy hwp hc hxe hye
      simp [superInit, lenBad] at hlp hlx hly
      rw [wOkB_weightRename _ _ (by decide) (by decide),
          wOkB_weightRename _ _ (by decide) (by decide)] at hwy
      rw [wOkB_weightRename _ _ (by decide) (by decide),
          wOkB_weightRename _ _ (by decide) (by decide),
          wOkB_weightRename _ _ (by decide) (by decide)] at hwp
      subst h
      refine ⟨?_, ?_⟩
      · simp_all [validTLVE, lenBad, List.isEmpty_iff]
      · simp [finalState, finalTD, resolvedCT, renamedW, thermodictKeys, superInit,
          hx, hT, hy, hP, hc, hxe, hye]

theorem initData_ok_of_valid {d : DataDict} (h : validTLVE d = true) :
    initData d = .ok (finalState d) := by
  rcases hx : d.xi with _ | x
  · simp [validTLVE, hx] at h
  rcases hT : d.T with _ | t0
  · simp [validTLVE, hT] at h
  rcases hy : d.yi with _ | y
  · simp [validTLVE, hy] at h
  simp only [validTLVE, hx, hT, hy, Bool.and_eq_true, Bool.or_eq_true,
    Option.getD_some, Option.isSome_some, lenBad, Bool.not_eq_true',
    bne_eq_false_iff_eq] at h
  obtain ⟨⟨⟨⟨⟨⟨⟨⟨⟨hwx, hwy⟩, hwp⟩, _⟩, _⟩, _⟩, hlp⟩, hlx⟩, hly⟩, hct⟩ := h
  have hwy2 : wOkB "yi" y.length
      (weightRename "T" "Tlist" (weightRename "xi" "xilist" d.weights)) = true := by
    rw [wOkB_weightRename _ _ (by decide) (by decide),
        wOkB_weightRename _ _ (by decide) (by decide)]
    exact hwy
  rcases hP : d.P with _ | p
  · rcases hctd : d.calculation_type with _ | c
    · by_cases hxe : x = []
      · subst hxe
        have ht0 : t0 = [] := by simpa [List.length_eq_zero] using hlx.symm
        subst ht0
        have hy0 : y = [] := by simpa [List.length_eq_zero] using hly
        subst hy0
        rcases hct with (hc | hc) | hc
        · simp [hctd] at hc
        · simp at hc
        · simp at hc
      · rw [hlx] at hwx
        rw [hly] at hwy2
        simp [initData, superInit, xiStep, tStep, yiStep, pStep, checksStep, ctStep,
          hx, hT, hy, hP, hctd, weightBlock_eq, hwx, hwy2, lenBad, hlx, hly,
          Bind.bind, Except.bind, finalState, finalTD, resolvedCT, renamedW,
          thermodictKeys, hxe]
    · rw [hlx] at hwx
      rw [hly] at hwy2
      simp [initData, superInit, xiStep, tStep, yiStep, pStep, checksStep, ctStep,
        hx, hT, hy, hP, hctd, weightBlock_eq, hwx, hwy2, lenBad, hlx, hly,
        Bind.bind, Except.bind, finalState, finalTD, resolvedCT, renamedW,
        thermodictKeys]
  · simp only [hP, bne_eq_false_iff_eq] at hwp hlp
    have hwp2 : wOkB "P" p.length
        (weightRename "yi" "yilist" (weightRename "T" "Tlist"
          (weightRename "xi" "xilist" d.weights))) = true := by
      rw [wOkB_weightRename _ _ (by decide) (by decide),
          wOkB_weightRename _ _ (by decide) (by decide),
          wOkB_weightRename _ _ (by decide) (by decide)]
      exact hwp
    have hlp2 : p.length = t0.length := hlp
    rcases hctd : d.calculation_type with _ | c
    · by_cases hxe : x = []
      · subst hxe
        have ht0 : t0 = [] := by simpa [List.length_eq_zero] using hlx.symm
        subst ht0
        have hy0 : y = [] := by simpa [List.length_eq_zero] using hly
        subst hy0
        rcases hct with (hc | hc) | hc
        · simp [hctd] at hc
        · simp at hc
        · simp at hc
      · rw [hlx] at hwx
        rw [hly] at hwy2
        rw [hlp2] at hwp2
        simp [initData, superInit, xiStep, tStep, yiStep, pStep, checksStep, ctStep,
          hx, hT, hy, hP, hctd, weightBlock_eq, hwx, hwy2, hwp2, lenBad, hlp2,
          hlx, hly, Bind.bind, Except.bind, finalState, finalTD, resolvedCT,
          renamedW, thermodictKeys, hxe]
    · rw [hlx] at hwx
      rw [hly] at hwy2
      rw [hlp2] at hwp2
      simp [initData, superInit, xiStep, tStep, yiStep, pStep, checksStep, ctStep,
        hx, hT, hy, hP, hctd, weightBlock_eq, hwx, hwy2, hwp2, lenBad, hlp2,
        hlx, hly, Bind.bind, Except.bind, finalState, finalTD, resolvedCT,
        renamedW, thermodictKeys]

theorem lookup_weightsFill_of_some (ks : List String) {w : List (String × WVal)}
    {k : String} {v : WVal} (hv : List.lookup k w = some v) :
    List.lookup k (weightsFill ks w) = some v := by
  induction ks generalizing w with
  | nil => exact hv
  | cons a rest ih =>
    simp only [weightsFill]
    by_cases hcond : (List.lookup a w) = none ∧
        a ∉ (["calculation_type", "density_dict", "mpObj"] : List String)
    · rw [if_pos hcond]
      apply ih
      by_cases hak : a = k
      · subst hak
        rw [hv] at hcond
        exact absurd hcond.1 (by simp)
      · rw [lookup_kvSet_ne _ _ (fun hh => hak hh.symm)]
        exact hv
    · rw [if_neg hcond]
      exact ih hv

theorem lookup_weightsFill_of_mem {ks : List String} {w : List (String × WVal)}
    {k : String} (hk : k ∈ ks)
    (hexcl : k ∉ (["calculation_type", "density_dict", "mpObj"] : List String)) :
    List.lookup k (weightsFill ks w) =
      some ((List.lookup k w).getD (.scalar 1)) := by
  induction ks generalizing w with
  | nil => cases hk
  | cons a rest ih =>
    simp only [weightsFill]
    by_cases hak : a = k
    · subst hak
      by_cases hcond : (List.lookup a w) = none ∧
          a ∉ (["calculation_type", "density_dict", "mpObj"] : List String)
      · rw [if_pos hcond,
          lookup_weightsFill_of_some rest (lookup_kvSet_self a (.scalar 1) w),
          hcond.1]
        rfl
      · rw [if_neg hcond]
        rcases hlu : List.lookup a w with _ | v
        · exact absurd ⟨hlu, hexcl⟩ hcond
        · rw [lookup_weightsFill_of_some rest hlu]
          simp [hlu]
    · have hk2 : k ∈ rest := by
        rcases List.mem_cons.mp hk with h | h
        · exact absurd h.symm hak
        · exact h
      by_cases hcond : (List.lookup a w) = none ∧
          a ∉ (["calculation_type", "density_dict", "mpObj"] : List String)
      · rw [if_pos hcond, ih hk2, lookup_kvSet_ne _ _ (fun hh => hak hh.symm)]
      · rw [if_neg hcond]
        exact ih hk2

theorem lookup_ite_weightRename_ne {k o nk : String} {c : Prop} [Decidable c]
    (w : List (String × WVal)) (ho : k ≠ o) (hnk : k ≠ nk) :
    List.lookup k (if c then weightRename o nk w else w) = List.lookup k w := by
  split
  · exact lookup_weightRename_ne w ho hnk
  · rfl

theorem lookup_rename_layer_none {o nk : String} {c : Prop} [Decidable c]
    {w : List (String × WVal)} (hnk_none : List.lookup nk w = none)
    (ho_none : List.lookup o w = none) :
    List.lookup nk (if c then weightRename o nk w else w) = none := by
  split
  · unfold weightRename
    rw [ho_none]
    exact hnk_none
  · exact hnk_none

theorem mem_ite_singleton {c : Prop} [Decidable c] {k s : String}
    (h : k ∈ (if c then [s] else ([] : List String))) : k = s := by
  by_cases hc : c
  · rw [if_pos hc] at h
    simpa using h
  · rw [if_neg hc] at h
    simp at h

theorem mem_thermodictKeys {td : ThermoDict} {k : String}
    (h : k ∈ thermodictKeys td) :
    k = "calculation_type" ∨ k = "mpObj" ∨ k = "density_dict" ∨ k = "xilist" ∨
    k = "Tlist" ∨ k = "yilist" ∨ k = "Plist" ∨ k = "Pguess" := by
  unfold thermodictKeys at h
  simp only [List.mem_cons, List.mem_append] at h
  rcases h with (((((((h | h) | h) | h) | h) | h) | h) | h) | h
  · exact Or.inl h
  · simp at h
  · exact Or.inr (Or.inl (mem_ite_singleton h))
  · exact Or.inr (Or.inr (Or.inl (mem_ite_singleton h)))
  · exact Or.inr (Or.inr (Or.inr (Or.inl (mem_ite_singleton h))))
  · exact Or.inr (Or.inr (Or.inr (Or.inr (Or.inl (mem_ite_singleton h)))))
  · exact Or.inr (Or.inr (Or.inr (Or.inr (Or.inr (Or.inl (mem_ite_singleton h))))))
  · exact Or.inr (Or.inr (Or.inr (Or.inr (Or.inr (Or.inr (Or.inl (mem_ite_singleton h)))))))
  · exact Or.inr (Or.inr (Or.inr (Or.inr (Or.inr (Or.inr (Or.inr (mem_ite_singleton h)))))))

/-- Claim C6 (confirmed): constructing a TLVE dataset in which a per-point
data array (`P`, `xi` or `yi`) has a length different from `T`'s, or in which
a weight array supplied for `P`, `xi` or `yi` has a length different from its
property's data array, fails with an error at construction time (the
`ValueError` of lines 66/78/87/100; when required fields are also missing an
`ImportError` fires first — either way construction fails, never deferring
to evaluation time). -/
theorem claim_C6 {d : DataDict} {t : List ℚ} (hT : d.T = some t)
    (hbad :
      (∃ p, d.P = some p ∧ p.length ≠ t.length) ∨
      (∃ x, d.xi = some x ∧ x.length ≠ t.length) ∨
      (∃ y, d.yi = some y ∧ y.length ≠ t.length) ∨
      (∃ x a, d.xi = some x ∧ List.lookup "xi" d.weights = some (.arr a) ∧
        a.length ≠ x.length) ∨
      (∃ y a, d.yi = some y ∧ List.lookup "yi" d.weights = some (.arr a) ∧
        a.length ≠ y.length) ∨
      (∃ p a, d.P = some p ∧ List.lookup "P" d.weights = some (.arr a) ∧
        a.length ≠ p.length)) :
    ∃ e, initData d = .error e := by
  cases hres : initData d with
  | error e => exact ⟨e, rfl⟩
  | ok s =>
    exfalso
    obtain ⟨hv, -⟩ := initData_ok_state hres
    rcases hbad with ⟨p, hp, hne⟩ | ⟨x, hx, hne⟩ | ⟨y, hy, hne⟩ |
      ⟨x, a, hx, ha, hne⟩ | ⟨y, a, hy, ha, hne⟩ | ⟨p, a, hp, ha, hne⟩
    · simp [validTLVE, hT, hp, lenBad, hne] at hv
    · simp [validTLVE, hT, hx, lenBad, hne] at hv
    · simp [validTLVE, hT, hy, lenBad, hne] at hv
    · simp [validTLVE, hx, wOkB, ha, hne] at hv
    · simp [validTLVE, hy, wOkB, ha, hne] at hv
    · simp [validTLVE, hp, wOkB, ha, hne] at hv

/-- Witness for `claim_C6`: `T` of length 5 with `P` of length 4 fails. -/
theorem claim_C6_witness : ∃ e, initData exC6 = .error e :=
  claim_C6 rfl (Or.inl ⟨[1, 2, 3, 4], rfl, by decide⟩)

/-- Claim C7, counterexample: the input `exC7` provides `P`, `xi` and `yi`
but no `T`, so it meets the claim's requirement ("at least one of P, T and
both of xi, yi"), yet construction fails: line 96 evaluates
`len(self.thermodict["Tlist"])` and raises a `KeyError` — the claimed
"exactly when" does not hold. -/
theorem claim_C7_counterexample :
    initData exC7 = .error (.keyError "Tlist") ∧
    (exC7.P ≠ none ∨ exC7.T ≠ none) ∧ exC7.xi ≠ none ∧ exC7.yi ≠ none :=
  ⟨by decide, by decide, by decide, by decide⟩

/-- Claim C7 as amended: a TLVE dataset construction succeeds exactly when
the input provides `T` (not merely one of `P`/`T`: without `T` the point
count `len(Tlist)` raises a `KeyError`), both `xi` and `yi`, weights for
`xi`/`yi`/`P` that are scalars or arrays of the matching length, `P` (when
given), `xi` and `yi` of the same length as `T`, and a calculation type that
is given or inferable from a non-empty `xi` or `yi` — the predicate
`validTLVE`. -/
theorem claim_C7_amended (d : DataDict) :
    (∃ s, initData d = .ok s) ↔ validTLVE d = true := by
  constructor
  · rintro ⟨s, hs⟩
    exact (initData_ok_state hs).1
  · intro hv
    exact ⟨finalState d, initData_ok_of_valid hv⟩

/-- Claim C8 (code bug): the input `exC8` supplies the density-scan option
`rhoinc = 5` under `density_dict`, yet the constructed dataset's
`density_dict` is the empty dictionary: line 56 overwrites the key with `{}`
and lines 57-58 merge that empty dict into itself, so the supplied options
are discarded and the documented defaults (`minrhofrac = 1/300000`,
`rhoinc = 10.0`, `vspacemax = 1e-4` per the class docstring, line 48) are
never installed — contradicting both the claim and the code's own
documentation. -/
theorem claim_C8 :
    exC8.density_dict = some [("rhoinc", 5)] ∧
    Except.map (fun s => s.thermodict.density_dict) (initData exC8) =
      .ok (some []) :=
  ⟨by decide, by decide⟩

/-- Claim C9 (confirmed): for every TLVE dataset constructed with
`calculation_type = None` that completes construction successfully, the
resulting calculation type is `"phase_xiT"` whenever the supplied `xi` list
is non-empty, is `"phase_yiT"` only when `xi` is empty and `yi` is
non-empty, and is never `None`. -/
theorem claim_C9 {d : DataDict} {s : DState} (hct : d.calculation_type = none)
    (h : initData d = .ok s) :
    (d.xi.getD [] ≠ [] → s.thermodict.calculation_type = some "phase_xiT") ∧
    (s.thermodict.calculation_type = some "phase_yiT" →
      d.xi.getD [] = [] ∧ d.yi.getD [] ≠ []) ∧
    s.thermodict.calculation_type ≠ none := by
  obtain ⟨hv, rfl⟩ := initData_ok_state h
  show (_ ≠ _ → resolvedCT d = _) ∧ (resolvedCT d = _ → _) ∧ resolvedCT d ≠ none
  unfold resolvedCT
  rw [hct]
  by_cases hx : d.xi.getD [] = []
  · rw [if_neg (fun hne => hne hx)]
    by_cases hy : d.yi.getD [] = []
    · exfalso
      simp [validTLVE, hct, hx, hy] at hv
    · rw [if_pos hy]
      exact ⟨fun hne => absurd hx hne, fun _ => ⟨hx, hy⟩, by simp⟩
  · rw [if_pos hx]
    refine ⟨fun _ => rfl, fun hEq => ?_, by simp⟩
    simp at hEq

/-- Witness for `claim_C9` at the concrete input `exC9`. -/
theorem claim_C9_witness :
    (exC9.xi.getD [] ≠ [] →
      (finalState exC9).thermodict.calculation_type = some "phase_xiT") ∧
    ((finalState exC9).thermodict.calculation_type = some "phase_yiT" →
      exC9.xi.getD [] = [] ∧ exC9.yi.getD [] ≠ []) ∧
    (finalState exC9).thermodict.calculation_type ≠ none :=
  claim_C9 rfl (by decide)

/-- Claim C10 (confirmed): after every successful TLVE construction, every
key of `thermodict` except `calculation_type`, `density_dict` and `mpObj`
has an entry in the weights dictionary, and any such key for which the user
supplied no weight (neither under the key itself nor under its pre-rename
name, `origKey`) carries weight `1.0`. -/
theorem claim_C10 {d : DataDict} {s : DState} (h : initData d = .ok s) :
    ∀ k ∈ thermodictKeys s.thermodict,
      k ∉ (["calculation_type", "density_dict", "mpObj"] : List String) →
      ∃ wv, List.lookup k s.weights = some wv ∧
        ((List.lookup k d.weights = none ∧
          List.lookup (origKey k) d.weights = none) → wv = .scalar 1) := by
  obtain ⟨-, rfl⟩ := initData_ok_state h
  intro k hk hexcl
  refine ⟨(List.lookup k (renamedW d)).getD (.scalar 1),
    lookup_weightsFill_of_mem hk hexcl, ?_⟩
  rintro ⟨hnone, horig⟩
  suffices hs : List.lookup k (renamedW d) = none by
    rw [hs]
    rfl
  rcases mem_thermodictKeys hk with rfl | rfl | rfl | rfl | rfl | rfl | rfl | rfl
  · exact absurd (by decide) hexcl
  · exact absurd (by decide) hexcl
  · exact absurd (by decide) hexcl
  · simp only [renamedW]
    rw [lookup_ite_weightRename_ne _ (by decide) (by decide),
        lookup_ite_weightRename_ne _ (by decide) (by decide),
        lookup_ite_weightRename_ne _ (by decide) (by decide)]
    exact lookup_rename_layer_none hnone horig
  · simp only [renamedW]
    rw [lookup_ite_weightRename_ne _ (by decide) (by decide),
        lookup_ite_weightRename_ne _ (by decide) (by decide)]
    refine lookup_rename_layer_none ?_ ?_
    · rw [lookup_ite_weightRename_ne _ (by decide) (by decide)]
      exact hnone
    · rw [lookup_ite_weightRename_ne _ (by decide) (by decide)]
      exact horig
  · simp only [renamedW]
    rw [lookup_ite_weightRename_ne _ (by decide) (by decide)]
    refine lookup_rename_layer_none ?_ ?_
    · rw [lookup_ite_weightRename_ne _ (by decide) (by decide),
          lookup_ite_weightRename_ne _ (by decide) (by decide)]
      exact hnone
    · rw [lookup_ite_weightRename_ne _ (by decide) (by decide),
          lookup_ite_weightRename_ne _ (by decide) (by decide)]
      exact horig
  · simp only [renamedW]
    refine lookup_rename_layer_none ?_ ?_
    · rw [lookup_ite_weightRename_ne _ (by decide) (by decide),
          lookup_ite_weightRename_ne _ (by decide) (by decide),
          lookup_ite_weightRename_ne _ (by decide) (by decide)]
      exact hnone
    · rw [lookup_ite_weightRename_ne _ (by decide) (by decide),
          lookup_ite_weightRename_ne _ (by decide) (by decide),
          lookup_ite_weightRename_ne _ (by decide) (by decide)]
      exact horig
  · simp only [renamedW]
    rw [lookup_ite_weightRename_ne _ (by decide) (by decide),
        lookup_ite_weightRename_ne _ (by decide) (by decide),
        lookup_ite_weightRename_ne _ (by decide) (by decide),
        lookup_ite_weightRename_ne _ (by decide) (by decide)]
    exact hnone

/-- Witness for `claim_C10` at the concrete input `exC10` and key `Pguess`. -/
theorem claim_C10_witness :
    ∃ wv, List.lookup "Pguess" (finalState exC10).weights = some wv ∧
      ((List.lookup "Pguess" exC10.weights = none ∧
        List.lookup (origKey "Pguess") exC10.weights = none) → wv = .scalar 1) :=
  claim_C10 (by decide) "Pguess" (by decide) (by decide)

end Despasito
